import Mathlib

/-
Verification of the audio deep-dream pipeline
(src/dataset.py and src/deep_dream.py).

Numeric conventions of the shallow embedding:
* machine floats are modelled by exact rationals (ℚ); division is Lean's
  total division, so a division by zero yields 0 where numpy would emit a
  nan together with a RuntimeWarning;
* a complex STFT cell is modelled in polar form as a pair
  (magnitude, angle/π) : ℚ × ℚ, so that librosa.magphase is projection,
  np.angle(phase)/π is the second component, and all arithmetic stays in ℚ;
* the external numeric kernels that are not part of this repository
  (librosa.stft, librosa.istft, cv2.resize interpolation, the pretrained
  classifier's backward pass, the power functions x ↦ x^(1/8) and
  x ↦ x^(1/MAGNITUDE_NONLINEARITY)) enter as explicit function parameters,
  so every theorem quantifies over their possible behaviours and every
  witness instantiates them with a concrete function.
-/

namespace SpeakerDeepDream

/-- Maximum of a list of rationals, `numpy.ndarray.max` style: the fold
starts from the first element (0 for the empty array, on which numpy
would instead raise). -/
def listMax (l : List ℚ) : ℚ := l.foldl max (l.headD 0)

/-- Minimum of a list of rationals, `numpy.ndarray.min` style. -/
def listMin (l : List ℚ) : ℚ := l.foldl min (l.headD 0)

/-- Maximum entry of a matrix (list of rows), `a.max()` on a 2-D array. -/
def matMax (m : List (List ℚ)) : ℚ := listMax m.flatten

namespace ExtractStft

/-- Magnitude channel of a polar spectrum: `mag` of `librosa.magphase`. -/
def magChannel (s : List (List (ℚ × ℚ))) : List (List ℚ) :=
  s.map (fun row => row.map Prod.fst)

/-- Angle-over-π channel of a polar spectrum: `np.angle(phase)/π`. -/
def angChannel (s : List (List (ℚ × ℚ))) : List (List ℚ) :=
  s.map (fun row => row.map Prod.snd)

/-- The compressed magnitudes of src/dataset.py line 24,
`mag = np.power(mag, 1 / 8)`, with the elementwise eighth-root kernel
abstracted as `powF`. -/
def compressedMag (stftF : List ℚ → List (List (ℚ × ℚ))) (powF : ℚ → ℚ)
    (flac : List ℚ) : List (List ℚ) :=
  (magChannel (stftF flac)).map (fun row => row.map powF)

/-- The magnitude rescale of src/dataset.py line 25:
`mag = 1 - mag / mag.max() * 255`. -/
def rescaleMag (mag : List (List ℚ)) : List (List ℚ) :=
  mag.map (fun row => row.map (fun m => 1 - m / matMax mag * 255))

/-- src/dataset.py lines 18-29, `ExtractStft.get_stft`: forward spectral
transform.  `stftF` stands for `librosa.stft` (in polar cells), `powF` for
the eighth-root.  Line 26 `ph = np.angle(phase) / np.pi * 255` becomes
multiplication by 255 because angles are stored already divided by π.
The function returns ONLY the stacked 2-channel array of line 28-29
(`np.stack((mag, ph), axis=-1)`); it does not return `mag.max()` nor the
phase array. -/
def get_stft (stftF : List ℚ → List (List (ℚ × ℚ))) (powF : ℚ → ℚ)
    (flac : List ℚ) : List (List (ℚ × ℚ)) :=
  let mag := compressedMag stftF powF flac
  let magR := rescaleMag mag
  let ph := (angChannel (stftF flac)).map (fun row => row.map (fun a => a * 255))
  List.zipWith (List.zipWith Prod.mk) magR ph

end ExtractStft

/-- Python iterable unpacking `a, b, c = arr` over the first axis of an
array: succeeds exactly when the axis has length 3 (otherwise a
ValueError is raised, modelled as `none`). -/
def pyUnpack3 {α : Type} (rows : List α) : Option (α × α × α) :=
  match rows with
  | [a, b, c] => some (a, b, c)
  | _ => none

namespace DataPreprocessor

/-- src/deep_dream.py line 42 inside `DataPreprocessor.transform`:
`stacked, phase, mag_max_value = ExtractStft.get_stft(signal)` — a
three-way unpack of whatever `get_stft` returns. -/
def transformStep (stftF : List ℚ → List (List (ℚ × ℚ))) (powF : ℚ → ℚ)
    (signal : List ℚ) :
    Option (List (ℚ × ℚ) × List (ℚ × ℚ) × List (ℚ × ℚ)) :=
  pyUnpack3 (ExtractStft.get_stft stftF powF signal)

end DataPreprocessor

/-- Modelled from the spec: `constants.MAGNITUDE_NONLINEARITY`
(constants.py is not part of src/).  Spec §4.1 and §9 require this
constant to "literally equal 8". -/
def MAGNITUDE_NONLINEARITY : ℚ := 8

/-- The forward magnitude compression exponent of src/dataset.py line 24,
`np.power(mag, 1 / 8)`. -/
def forwardMagnitudeExponent : ℚ := 1 / 8

/-- The inverse magnitude decompression exponent of src/deep_dream.py
line 167, `np.power(out, 1 / constants.MAGNITUDE_NONLINEARITY)`. -/
def inverseMagnitudeExponent : ℚ := 1 / MAGNITUDE_NONLINEARITY

namespace Denormalize

/-- src/deep_dream.py lines 165-166:
`stft = (stft + 127.5)` and `out = (1 - stft / stft.max()) * mag_max_value`,
applied to the (already vertically flipped) magnitude channel. -/
def magDecode (stftCh : List (List ℚ)) (magMaxValue : ℚ) : List (List ℚ) :=
  let z := stftCh.map (fun row => row.map (fun v => v + 255 / 2))
  z.map (fun row => row.map (fun v => (1 - v / matMax z) * magMaxValue))

/-- src/deep_dream.py line 175: `np.clip(unfouriered, -1, 1)`
on one sample. -/
def pyClip (x : ℚ) : ℚ := max (-1) (min 1 x)

/-- src/deep_dream.py lines 163-175, the body of `Denormalize.transform`
for one `(stft, fs, mag_max_value, phase)` item.  `powF` abstracts
`np.power(·, 1/MAGNITUDE_NONLINEARITY)` and `istftF` abstracts
`librosa.istft` (on polar cells).  Line 164 `np.flipud(stft)[..., 0]` is
row reversal followed by the magnitude-channel projection; line 169
`stft = out * phase` pairs each decoded magnitude with its phase angle
(polar form); line 174 renormalizes the waveform to [-4, 4]. -/
def transformItem (powF : ℚ → ℚ)
    (istftF : List (List (ℚ × ℚ)) → List ℚ)
    (item : List (List (ℚ × ℚ)) × ℕ × ℚ × List (List ℚ)) : List ℚ × ℕ :=
  let ch0 := (item.1.reverse).map (fun row => row.map Prod.fst)
  let out := magDecode ch0 item.2.2.1
  let out2 := out.map (fun row => row.map powF)
  let spectrum := List.zipWith (List.zipWith Prod.mk) out2 item.2.2.2
  let u := istftF spectrum
  let nu := u.map (fun x => ((x - listMin u) / (listMax u - listMin u) - 1 / 2) * 8)
  (nu.map pyClip, item.2.1)

/-- src/deep_dream.py lines 160-177, `Denormalize.transform` over the
whole input list. -/
def transform (powF : ℚ → ℚ)
    (istftF : List (List (ℚ × ℚ)) → List ℚ)
    (xs : List (List (List (ℚ × ℚ)) × ℕ × ℚ × List (List ℚ))) :
    List (List ℚ × ℕ) :=
  xs.map (transformItem powF istftF)

end Denormalize

/-! ## Tiling geometry (src/deep_dream.py `Model.calc_grad_tiled`) -/

/-- The fixed tile extent, src/deep_dream.py line 134 (`tile_size: int = 128`). -/
def tileSize : ℕ := 128

/-- The loop stop bound of src/deep_dream.py lines 139-140:
`max(h - tile_size // 2, tile_size)`. -/
def tileStop (d : ℕ) : ℕ := max (d - tileSize / 2) tileSize

/-- Number of iterations of `range(0, tileStop d, tileSize)`. -/
def tileCount (d : ℕ) : ℕ := (tileStop d + (tileSize - 1)) / tileSize

/-- The tile start offsets produced by
`range(0, max(d - tile_size // 2, tile_size), tile_size)`. -/
def tileStartsOf (d : ℕ) : List ℕ :=
  (List.range (tileCount d)).map (fun k => k * tileSize)

/-- Index `i` of a spatial run of extent `d` falls inside some tile
`[y, y + tileSize)` of the loop. -/
def coveredRow (d i : ℕ) : Prop :=
  ∃ y ∈ tileStartsOf d, y ≤ i ∧ i < y + tileSize

instance (d i : ℕ) : Decidable (coveredRow d i) := by
  unfold coveredRow; infer_instance

/-- Element `(i, j)` of an `h × w` tensor is written by some tile of the
double loop of src/deep_dream.py lines 139-151. -/
def covered2 (h w i j : ℕ) : Prop := coveredRow h i ∧ coveredRow w j

instance (h w i j : ℕ) : Decidable (covered2 h w i j) := by
  unfold covered2; infer_instance

/-! ## Tensors and the tiled gradient engine
(src/deep_dream.py `Model.calc_grad_tiled`) -/

/-- A `(channels, rows, cols)` tensor of rationals, the layout produced by
`stft.permute((2, 0, 1))` at src/deep_dream.py line 119.  Entries outside
the shape are junk. -/
structure Tensor3 where
  channels : ℕ
  rows : ℕ
  cols : ℕ
  data : ℕ → ℕ → ℕ → ℚ

/-- Modelled from the spec: `pytorch_extensions.roll` (the module is not
part of src/) — spec §4.3: "Circularly shift the tensor … along its two
spatial axes (toroidal wrap — content exiting one edge reenters the
opposite edge)", with numpy/torch roll semantics
`result[j] = input[(j - s) mod n]`.  This is the shift along axis 2. -/
def rollW (t : Tensor3) (s : ℤ) : Tensor3 :=
  ⟨t.channels, t.rows, t.cols,
    fun c i j => t.data c i (((j : ℤ) - s).emod (t.cols : ℤ)).toNat⟩

/-- Modelled from the spec: `pytorch_extensions.roll` along axis 1
(see `rollW`). -/
def rollH (t : Tensor3) (s : ℤ) : Tensor3 :=
  ⟨t.channels, t.rows, t.cols,
    fun c i j => t.data c (((i : ℤ) - s).emod (t.rows : ℤ)).toNat j⟩

/-- `torch.zeros_like(stft)`, src/deep_dream.py line 138. -/
def zerosLike (t : Tensor3) : Tensor3 :=
  ⟨t.channels, t.rows, t.cols, fun _ _ _ => 0⟩

/-- The tile slice `stft_shift[:, y:y+tile_size, x:x+tile_size]` of
src/deep_dream.py line 141 (clipped at the storage boundary). -/
def frameAt (t : Tensor3) (y x : ℕ) : Tensor3 :=
  ⟨t.channels, min tileSize (t.rows - y), min tileSize (t.cols - x),
    fun c i j => t.data c (y + i) (x + j)⟩

/-- The assignment `grads[:, y:y+tile_size, x:x+tile_size] = grad` of
src/deep_dream.py line 151. -/
def writeTile (g frameGrad : Tensor3) (y x : ℕ) : Tensor3 :=
  ⟨g.channels, g.rows, g.cols,
    fun c i j =>
      if y ≤ i ∧ i < y + tileSize ∧ x ≤ j ∧ j < x + tileSize then
        frameGrad.data c (i - y) (j - x)
      else g.data c i j⟩

/-- The double tile loop of src/deep_dream.py lines 139-151.  `G` is the
per-tile gradient oracle: forward pass of the classifier on the frame,
mean of the captured activation at `[0, 6]`, backward pass, read of
`frame.grad` (lines 142-150); it is a function of the frame because
classifier parameters are fixed and the hook slot is overwritten on
every forward pass. -/
def writeTiles (G : Tensor3 → Tensor3) (sh : Tensor3) (g0 : Tensor3) : Tensor3 :=
  (tileStartsOf g0.rows).foldl
    (fun g y =>
      (tileStartsOf g0.cols).foldl
        (fun g2 x => writeTile g2 (G (frameAt sh y x)) y x) g)
    g0

/-- src/deep_dream.py lines 134-153, `Model.calc_grad_tiled`.  The random
draw `sx, sy = self._np_rng.randint(tile_size, size=2)` (line 136) is
modelled by passing the drawn offsets `sx sy` explicitly: a fixed seed
fixes them, and they are the only randomness of the function. -/
def calcGradTiled (G : Tensor3 → Tensor3) (sx sy : ℕ) (t : Tensor3) : Tensor3 :=
  let sh := rollH (rollW t (sx : ℤ)) (sy : ℤ)
  let grads := writeTiles G sh (zerosLike t)
  rollH (rollW grads (-(sx : ℤ))) (-(sy : ℤ))

/-! ## Octave pyramid and the activation-maximization driver
(src/deep_dream.py `Model._transform_single_normal_deep_dream`) -/

/-- A `(rows, cols)` image as handled by `cv2.resize` in
`_transform_single_normal_deep_dream` (the channel axis rides along
unchanged and is absorbed into the entry type). -/
@[ext]
structure PyImage where
  rows : ℕ
  cols : ℕ
  data : ℕ → ℕ → ℚ

/-- Elementwise numpy addition of same-shaped arrays; the shape is the
first operand's. -/
def PyImage.add (a b : PyImage) : PyImage :=
  ⟨a.rows, a.cols, fun i j => a.data i j + b.data i j⟩

/-- Elementwise numpy subtraction of same-shaped arrays. -/
def PyImage.sub (a b : PyImage) : PyImage :=
  ⟨a.rows, a.cols, fun i j => a.data i j - b.data i j⟩

/-- `cv2.resize(img, (cols, rows))` with the interpolation kernel
abstracted as `K`: the output has exactly the requested shape and its
entries are computed by `K` from the source image and the target shape. -/
def resizeK (K : PyImage → ℕ × ℕ → ℕ → ℕ → ℚ) (img : PyImage)
    (s : ℕ × ℕ) : PyImage :=
  ⟨s.1, s.2, K img s⟩

/-- The downsampled dimension
`np.int32(np.float32(dim) / octave_scale)` of src/deep_dream.py line 106:
truncation of the exact quotient (float32 rounding of `1.4` never moves
the truncation point for realistic sizes). -/
def shrinkDim (scale : ℚ) (n : ℕ) : ℕ := ⌊(n : ℚ) / scale⌋₊

/-- The resize target of src/deep_dream.py line 106 (cv2 receives the
shape reversed; stated here directly as (rows, cols)). -/
def shrinkShape (scale : ℚ) (img : PyImage) : ℕ × ℕ :=
  (shrinkDim scale img.rows, shrinkDim scale img.cols)

/-- src/deep_dream.py lines 103-109: the octave decomposition loop
`for i in range(self._n_octaves - 1)`.  Returns the detail list in
append order (`octaves.append(hi)`) and the final coarse base. -/
def decomp (K : PyImage → ℕ × ℕ → ℕ → ℕ → ℚ) (scale : ℚ) :
    PyImage → ℕ → List PyImage × PyImage
  | img, 0 => ([], img)
  | img, m + 1 =>
    let lo := resizeK K img (shrinkShape scale img)
    let hi := img.sub (resizeK K lo (img.rows, img.cols))
    let r := decomp K scale lo m
    (hi :: r.1, r.2)

/-- One iteration of the octave loop of src/deep_dream.py lines 111-130
at index `octave`: for `octave > 0` read `octaves[-octave]` (Python
negative indexing, i.e. position `len - octave`; an out-of-range index
would raise and is modelled by the unreachable fallthrough branch),
upsample the current representation to that detail's shape and add the
detail (line 114), then run the per-octave optimisation loop `opt`
(lines 116-130; `opt = id` when `number_of_iterations = 0`, since the
tensor/permute conversions are value-preserving). -/
def octaveBody (K : PyImage → ℕ × ℕ → ℕ → ℕ → ℚ) (opt : PyImage → PyImage)
    (ds : List PyImage) (octave : ℕ) (cur : PyImage) : PyImage :=
  if octave = 0 then opt cur
  else
    match ds.get? (ds.length - octave) with
    | some hi => opt ((resizeK K cur (hi.rows, hi.cols)).add hi)
    | none => opt cur

/-- The first `t` iterations of the octave loop
`for octave in tqdm.trange(self._n_octaves, ...)`. -/
def runOctaves (K : PyImage → ℕ × ℕ → ℕ → ℕ → ℚ) (opt : PyImage → PyImage)
    (ds : List PyImage) (base : PyImage) : ℕ → PyImage
  | 0 => base
  | t + 1 => octaveBody K opt ds t (runOctaves K opt ds base t)

/-- src/deep_dream.py lines 102-132,
`Model._transform_single_normal_deep_dream`: decompose into
`n_octaves - 1` details plus a coarse base, then run all `n_octaves`
octave iterations. -/
def transformSingle (K : PyImage → ℕ × ℕ → ℕ → ℕ → ℚ) (scale : ℚ)
    (opt : PyImage → PyImage) (img : PyImage) (n : ℕ) : PyImage :=
  let d := decomp K scale img (n - 1)
  runOctaves K opt d.1 d.2 n

/-- Rows of the representation after `k` downsampling steps. -/
def dimAfter (scale : ℚ) : ℕ → ℕ → ℕ
  | r, 0 => r
  | r, k + 1 => dimAfter scale (shrinkDim scale r) k

/-! ## Driver construction and layer capture
(src/deep_dream.py `Model.__init__` and line 145) -/

/-- The characters of the marker `"residual"` of src/deep_dream.py
line 80. -/
def residWord : List Char := ['r', 'e', 's', 'i', 'd', 'u', 'a', 'l']

/-- `pat` begins the character list `text`. -/
def beginsWith : List Char → List Char → Bool
  | [], _ => true
  | _ :: _, [] => false
  | a :: as, b :: bs => a == b && beginsWith as bs

/-- `pat` occurs somewhere inside the character list (Python `in` on
strings). -/
def containsWord (pat : List Char) : List Char → Bool
  | [] => beginsWith pat []
  | c :: cs => beginsWith pat (c :: cs) || containsWord pat cs

/-- Python `"residual" in layer_name`, src/deep_dream.py line 80. -/
def nameHasResidual (s : String) : Bool := containsWord residWord s.toList

/-- The driver state assembled by `Model.__init__`: the configured block
name (line 60, stored without any validation) and the list of hooked
layer names (lines 79-83). -/
structure ModelState where
  blockName : String
  availableLayersNames : List String

namespace Model

/-- src/deep_dream.py lines 48-86, `Model.__init__`, restricted to the
name bookkeeping: it stores `block_name` and registers a hook for every
classifier layer whose name contains `"residual"`.  The function is
total — construction never checks that `block_name` was captured.
`layerNames` stands for `self._classifier.layers_blocks` keys (model.py
is external). -/
def initState (layerNames : List String) (blockName : String) : ModelState :=
  ⟨blockName, layerNames.filter (fun n => nameHasResidual n)⟩

/-- src/deep_dream.py line 145,
`self._available_layers[self._block_name]` at the first gradient
computation: after a forward pass the dict holds exactly the hooked
layer names, and a missing key raises KeyError (`none`). -/
def activationLookup (st : ModelState) : Option String :=
  st.availableLayersNames.find? (fun n => n == st.blockName)

/-- A pipeline item `(stft, sample_rate, mag_max_value, phase)` as
flowing through `Model.transform`. -/
def transform (dream : List (List (ℚ × ℚ)) → List (List (ℚ × ℚ)))
    (xs : List (List (List (ℚ × ℚ)) × ℕ × ℚ × List (List ℚ))) :
    List (List (List (ℚ × ℚ)) × ℕ × ℚ × List (List ℚ)) :=
  xs.map (fun it => (dream it.1, it.2.1, it.2.2.1, it.2.2.2))

end Model

/-! ## Concrete instances used by counterexamples and witnesses -/

/-- A concrete stand-in for `librosa.stft` returning five frequency bins
(any real window size ≥ 8 gives ≥ 5 bins) with unit magnitudes. -/
def stftFive : List ℚ → List (List (ℚ × ℚ)) :=
  fun _ => [[(1, 0)], [(1, 0)], [(1, 0)], [(1, 0)], [(1, 0)]]

/-- A concrete stand-in for `librosa.stft` on silence: by linearity the
STFT of the zero waveform is the zero spectrum (two bins, one frame). -/
def stftSilence : List ℚ → List (List (ℚ × ℚ)) :=
  fun _ => [[(0, 0)], [(0, 0)]]

/-- A concrete non-silent test waveform. -/
def wave1 : List ℚ := [1, 0, -1]

/-- The all-zero (silence) waveform. -/
def wave0 : List ℚ := [0, 0, 0]

/-- A concrete interpolation kernel for `cv2.resize`. -/
def K0 : PyImage → ℕ × ℕ → ℕ → ℕ → ℚ := fun _ _ _ _ => 0

/-- A concrete 10 × 10 representation. -/
def img0 : PyImage := ⟨10, 10, fun _ _ => 0⟩

/-- The detail list produced by the octave decomposition of `img0` with
`n_octaves = 3` and `octave_scale = 1.4`. -/
def dsC5 : List PyImage := (decomp K0 (7 / 5) img0 2).1

/-- A per-tile gradient oracle that is not shift-equivariant: the
gradient of a tile depends on the column index only. -/
def gradStub : Tensor3 → Tensor3 :=
  fun f => ⟨f.channels, f.rows, f.cols, fun _ _ j => if j = 0 then 0 else 1⟩

/-- A per-tile gradient oracle returning all ones. -/
def gradOnes : Tensor3 → Tensor3 :=
  fun f => ⟨f.channels, f.rows, f.cols, fun _ _ _ => 1⟩

/-- A concrete 1-channel 1 × 2 tensor. -/
def seedTensor : Tensor3 := ⟨1, 1, 2, fun _ _ _ => 0⟩

/-- A concrete 1-channel 320 × 128 tensor (all zero). -/
def tensor320 : Tensor3 := ⟨1, 320, 128, fun _ _ _ => 0⟩

/-- A concrete stand-in for `librosa.istft`. -/
def istft0 : List (List (ℚ × ℚ)) → List ℚ := fun _ => [0, 2]

/-- A concrete denormalization input item. -/
def item0 : List (List (ℚ × ℚ)) × ℕ × ℚ × List (List ℚ) :=
  ([[(0, 0)]], 16000, 1, [[0]])

/-- The classifier layer names of the construction counterexample. -/
def layersC9 : List String := ["initial_conv", "residual_1a", "residual_2b"]

/-! ## Helper lemmas -/

lemma mem_tileStartsOf {d y : ℕ} :
    y ∈ tileStartsOf d ↔ ∃ k, k < tileCount d ∧ y = k * tileSize := by
  unfold tileStartsOf
  constructor
  · intro hy
    obtain ⟨k, hk, rfl⟩ := List.mem_map.1 hy
    exact ⟨k, List.mem_range.1 hk, rfl⟩
  · rintro ⟨k, hk, rfl⟩
    exact List.mem_map.2 ⟨k, List.mem_range.2 hk, rfl⟩

lemma tileCount_pos (d : ℕ) : 0 < tileCount d := by
  have h : tileSize ≤ tileStop d := le_max_right _ _
  unfold tileCount
  have h2 : tileSize ≤ tileStop d + (tileSize - 1) := by omega
  exact Nat.div_pos h2 (by norm_num [tileSize])

lemma coveredRow_iff (d i : ℕ) :
    coveredRow d i ↔ i < tileCount d * tileSize := by
  unfold coveredRow
  constructor
  · rintro ⟨y, hy, h1, h2⟩
    obtain ⟨k, hk, rfl⟩ := mem_tileStartsOf.1 hy
    have h3 : (k + 1) * tileSize ≤ tileCount d * tileSize :=
      Nat.mul_le_mul_right _ hk
    simp only [tileSize] at *
    omega
  · intro h
    refine ⟨(i / tileSize) * tileSize,
      mem_tileStartsOf.2 ⟨i / tileSize, ?_, rfl⟩, ?_, ?_⟩
    · by_contra hc
      push_neg at hc
      have : tileCount d * tileSize ≤ (i / tileSize) * tileSize :=
        Nat.mul_le_mul_right _ hc
      simp only [tileSize] at *
      omega
    · simp only [tileSize]
      omega
    · simp only [tileSize]
      omega

lemma decomp_fst_length (K : PyImage → ℕ × ℕ → ℕ → ℕ → ℚ) (scale : ℚ) :
    ∀ (m : ℕ) (img : PyImage), ((decomp K scale img m).1).length = m := by
  intro m
  induction m with
  | zero => intro img; rfl
  | succ m ih =>
    intro img
    simp [decomp, ih]

lemma runOctaves_cons (K : PyImage → ℕ × ℕ → ℕ → ℕ → ℚ)
    (opt : PyImage → PyImage) (a : PyImage) (ds : List PyImage)
    (base : PyImage) :
    ∀ t, t ≤ ds.length + 1 →
      runOctaves K opt (a :: ds) base t = runOctaves K opt ds base t := by
  intro t
  induction t with
  | zero => intro _; rfl
  | succ t ih =>
    intro ht
    have ht' : t ≤ ds.length + 1 := by omega
    show octaveBody K opt (a :: ds) t (runOctaves K opt (a :: ds) base t) =
      octaveBody K opt ds t (runOctaves K opt ds base t)
    rw [ih ht']
    unfold octaveBody
    by_cases h0 : t = 0
    · simp [h0]
    · have hlen : (a :: ds).length - t = (ds.length - t) + 1 := by
        simp only [List.length_cons]
        omega
      simp only [h0, if_false]
      rw [hlen, List.get?_cons_succ]

lemma decomp_runOctaves (K : PyImage → ℕ × ℕ → ℕ → ℕ → ℚ) (scale : ℚ) :
    ∀ (m : ℕ) (img : PyImage),
      runOctaves K id (decomp K scale img m).1 (decomp K scale img m).2
        (m + 1) = img := by
  intro m
  induction m with
  | zero => intro img; rfl
  | succ m ih =>
    intro img
    simp only [decomp]
    show octaveBody K id _ (m + 1) (runOctaves K id _ _ (m + 1)) = img
    rw [runOctaves_cons K id _ _ _ (m + 1) (by rw [decomp_fst_length])]
    rw [ih _]
    unfold octaveBody
    simp only [Nat.succ_ne_zero, if_false]
    have hlen : (img.sub (resizeK K (resizeK K img (shrinkShape scale img))
        (img.rows, img.cols)) ::
        (decomp K scale (resizeK K img (shrinkShape scale img)) m).1).length -
        (m + 1) = 0 := by
      simp [decomp_fst_length]
    rw [hlen]
    simp only [List.get?_cons_zero]
    ext i j
    · simp [PyImage.add, PyImage.sub, resizeK]
    · simp [PyImage.add, PyImage.sub, resizeK]
    · simp [PyImage.add, PyImage.sub, resizeK]

lemma decomp_get_shapes (K : PyImage → ℕ × ℕ → ℕ → ℕ → ℚ) (scale : ℚ) :
    ∀ (m : ℕ) (img : PyImage) (k : ℕ) (d : PyImage),
      ((decomp K scale img m).1).get? k = some d →
      d.rows = dimAfter scale img.rows k ∧
      d.cols = dimAfter scale img.cols k := by
  intro m
  induction m with
  | zero => intro img k d h; simp [decomp] at h
  | succ m ih =>
    intro img k d h
    simp only [decomp] at h
    cases k with
    | zero =>
      rw [List.get?_cons_zero] at h
      cases h
      exact ⟨rfl, rfl⟩
    | succ k =>
      rw [List.get?_cons_succ] at h
      have h2 := ih (resizeK K img (shrinkShape scale img)) k d h
      simpa [dimAfter, resizeK, shrinkShape] using h2

lemma shrinkDim_le (scale : ℚ) (hs : 1 ≤ scale) (r : ℕ) :
    shrinkDim scale r ≤ r := by
  unfold shrinkDim
  calc ⌊(r : ℚ) / scale⌋₊ ≤ ⌊(r : ℚ)⌋₊ :=
        Nat.floor_le_floor (div_le_self (by positivity) hs)
  _ = r := Nat.floor_natCast r

lemma shrinkDim_mono (scale : ℚ) (hs : 1 ≤ scale) {r r' : ℕ} (h : r ≤ r') :
    shrinkDim scale r ≤ shrinkDim scale r' := by
  unfold shrinkDim
  apply Nat.floor_le_floor
  have hc : (r : ℚ) ≤ (r' : ℚ) := by exact_mod_cast h
  gcongr

lemma dimAfter_mono (scale : ℚ) (hs : 1 ≤ scale) :
    ∀ (k : ℕ) {r r' : ℕ}, r ≤ r' →
      dimAfter scale r k ≤ dimAfter scale r' k := by
  intro k
  induction k with
  | zero => intro r r' h; exact h
  | succ k ih =>
    intro r r' h
    exact ih (shrinkDim_mono scale hs h)

lemma dimAfter_add_le (scale : ℚ) (hs : 1 ≤ scale) (r k : ℕ) :
    ∀ d : ℕ, dimAfter scale r (k + d) ≤ dimAfter scale r k := by
  intro d
  induction d with
  | zero => exact le_refl _
  | succ d ih =>
    have step : dimAfter scale r (k + d + 1) ≤ dimAfter scale r (k + d) := by
      have hstep : ∀ (j : ℕ) (r : ℕ),
          dimAfter scale r (j + 1) ≤ dimAfter scale r j := by
        intro j
        induction j with
        | zero => intro r; exact shrinkDim_le scale hs r
        | succ j ihj =>
          intro r
          exact ihj (shrinkDim scale r)
      exact hstep (k + d) r
    exact le_trans step ih

lemma dimAfter_antitone (scale : ℚ) (hs : 1 ≤ scale) (r : ℕ)
    {k k' : ℕ} (h : k ≤ k') :
    dimAfter scale r k' ≤ dimAfter scale r k := by
  have h2 : k' = k + (k' - k) := by omega
  rw [h2]
  exact dimAfter_add_le scale hs r k _

lemma foldl_shape {α : Type} (f : Tensor3 → α → Tensor3)
    (hf : ∀ g a, (f g a).channels = g.channels ∧ (f g a).rows = g.rows ∧
      (f g a).cols = g.cols) :
    ∀ (l : List α) (g : Tensor3),
      (l.foldl f g).channels = g.channels ∧ (l.foldl f g).rows = g.rows ∧
      (l.foldl f g).cols = g.cols := by
  intro l
  induction l with
  | nil => intro g; exact ⟨rfl, rfl, rfl⟩
  | cons a as ih =>
    intro g
    have h1 := hf g a
    have h2 := ih (f g a)
    exact ⟨h2.1.trans h1.1, h2.2.1.trans h1.2.1, h2.2.2.trans h1.2.2⟩

lemma writeTiles_shape (G : Tensor3 → Tensor3) (sh g0 : Tensor3) :
    (writeTiles G sh g0).channels = g0.channels ∧
    (writeTiles G sh g0).rows = g0.rows ∧
    (writeTiles G sh g0).cols = g0.cols := by
  unfold writeTiles
  apply foldl_shape
  intro g y
  apply foldl_shape
  intro g2 x
  exact ⟨rfl, rfl, rfl⟩

/-! ## Claim theorems -/

/-- C1: the claim says `ExtractStft.get_stft` returns three things — the
2-channel representation, the scalar `mag_max_value` and the raw phase
array — so that `DataPreprocessor.transform` can unpack exactly these
three values.  In the code `get_stft` returns only the single stacked
array (here with 5 frequency bins for a concrete spectral kernel), so the
caller's three-way unpack of src/deep_dream.py line 42 fails (numpy
ValueError, modelled as `none`): the code contradicts its own caller. -/
theorem c1_get_stft_not_a_triple :
    (ExtractStft.get_stft stftFive id wave1).length = 5 ∧
    DataPreprocessor.transformStep stftFive id wave1 = none := by
  decide

/-- C2: the claim says the inverse transform undoes the forward one
within 1e-2 and that the exponents 1/8 and 1/MAGNITUDE_NONLINEARITY are
algebraic inverses.  Evaluating the code at the failing input — a
spectrum with compressed magnitudes 0 and 1 and `mag_max_value = 1` —
the inverse rescale of src/deep_dream.py lines 164-166 returns
`510/257 ≈ 1.98` at the maximum-magnitude bin (instead of 1) and 0 at
the zero bin (where the forward input that lands there after the flip
was 1), and with the spec-mandated `MAGNITUDE_NONLINEARITY = 8` the two
exponents multiply to 1/64, not 1. -/
theorem c2_inverse_rescale_mismatch :
    Denormalize.magDecode ((ExtractStft.rescaleMag [[0], [1]]).reverse) 1 =
      [[510 / 257], [0]] ∧
    MAGNITUDE_NONLINEARITY = 8 ∧
    forwardMagnitudeExponent * inverseMagnitudeExponent ≠ 1 := by
  refine ⟨?_, rfl, ?_⟩
  · norm_num [Denormalize.magDecode, ExtractStft.rescaleMag, matMax, listMax]
  · norm_num [forwardMagnitudeExponent, inverseMagnitudeExponent,
      MAGNITUDE_NONLINEARITY]

/-- C8: the claim says a zero maximum compressed magnitude (silence) is
reported as a degenerate-input error.  Evaluating the code at the
failing input (the zero waveform, whose spectrum has all-zero
magnitudes): the divisor `mag.max()` of src/dataset.py line 25 is 0, yet
`get_stft` proceeds through the division and returns a stacked array
(the total-division semantics yields magnitude channel 1 everywhere;
numpy yields nan with only a RuntimeWarning) — no error is reported. -/
theorem c8_silence_divides_by_zero_without_error :
    matMax (ExtractStft.compressedMag stftSilence id wave0) = 0 ∧
    ExtractStft.get_stft stftSilence id wave0 = [[(1, 0)], [(1, 0)]] := by
  constructor
  · norm_num [ExtractStft.compressedMag, ExtractStft.magChannel, stftSilence,
      wave0, matMax, listMax]
  · norm_num [ExtractStft.get_stft, ExtractStft.compressedMag,
      ExtractStft.magChannel, ExtractStft.angChannel, ExtractStft.rescaleMag,
      stftSilence, wave0, matMax, listMax]

/-- C9: the claim says a `block_name` absent from the captured layer
names makes the Driver fail at construction.  Evaluating the code at the
failing input (`block_name = "residual_9z"` against layers of which only
`residual_1a` and `residual_2b` are captured): `Model.__init__`
completes and stores the unvalidated name, and only the activation
lookup of src/deep_dream.py line 145 — reached at the first gradient
computation — fails (KeyError, modelled as `none`). -/
theorem c9_construction_defers_validation :
    (Model.initState layersC9 "residual_9z").blockName = "residual_9z" ∧
    (Model.initState layersC9 "residual_9z").availableLayersNames =
      ["residual_1a", "residual_2b"] ∧
    Model.activationLookup (Model.initState layersC9 "residual_9z") = none := by
  decide

/-- C7: every sample returned by `Denormalize.transform` lies in the
closed interval [-1, 1], for every input list, every decompression
kernel and every inverse-STFT kernel, and the operation is total (no
exception path): the final `np.clip(unfouriered, -1, 1)` of
src/deep_dream.py line 175 bounds whatever the preceding steps
produce. -/
theorem c7_output_clipped (powF : ℚ → ℚ)
    (istftF : List (List (ℚ × ℚ)) → List ℚ)
    (xs : List (List (List (ℚ × ℚ)) × ℕ × ℚ × List (List ℚ))) :
    ∀ out ∈ Denormalize.transform powF istftF xs,
      ∀ s ∈ out.1, -1 ≤ s ∧ s ≤ 1 := by
  intro out hout s hs
  rw [Denormalize.transform, List.mem_map] at hout
  obtain ⟨item, _, rfl⟩ := hout
  simp only [Denormalize.transformItem] at hs
  obtain ⟨y, _, rfl⟩ := List.mem_map.1 hs
  unfold Denormalize.pyClip
  exact ⟨le_max_left _ _, max_le (by norm_num) (min_le_left _ _)⟩

/-- Witness for C7 at a concrete item and a concrete output sample. -/
theorem c7_witness : -1 ≤ (-1 : ℚ) ∧ (-1 : ℚ) ≤ 1 :=
  c7_output_clipped id istft0 [item0]
    (Denormalize.transformItem id istft0 item0)
    (by rw [Denormalize.transform]
        exact List.mem_map_of_mem _ (List.mem_singleton_self _))
    (-1)
    (by norm_num [Denormalize.transformItem, istft0, item0,
          Denormalize.magDecode, matMax, listMax, listMin, Denormalize.pyClip])

/-- C10: `Model.transform` (src/deep_dream.py lines 94-100) preserves
length and order, and every output item keeps the input's
`sample_rate`, `mag_max_value` and `phase` unchanged, replacing only the
representation by the optimized one. -/
theorem c10_frame_effect
    (dream : List (List (ℚ × ℚ)) → List (List (ℚ × ℚ)))
    (xs : List (List (List (ℚ × ℚ)) × ℕ × ℚ × List (List ℚ))) :
    (Model.transform dream xs).length = xs.length ∧
    ∀ i : ℕ, (Model.transform dream xs)[i]? =
      (xs[i]?).map (fun it => (dream it.1, it.2)) := by
  constructor
  · exact List.length_map _ _
  · intro i
    rw [Model.transform, List.getElem?_map]

/-- C3 (counterexample): the claim says the tile loop writes every
element of the shifted tensor exactly once for every shape.  At shape
(320, 128) the row starts are [0, 128] (stop bound
`max(320 - 64, 128) = 256`), so rows 256..319 lie in no tile: element
(300, 0) is inside the tensor but never written — running the loop with
an all-ones gradient oracle leaves the accumulator at its initial 0
there, while covered cells hold 1. -/
theorem c3_tile_gap_cex :
    ¬ covered2 320 128 300 0 ∧ 300 < 320 ∧ 0 < 128 ∧
    (calcGradTiled gradOnes 0 0 tensor320).data 0 300 0 = 0 ∧
    (calcGradTiled gradOnes 0 0 tensor320).data 0 100 0 = 1 := by
  refine ⟨by decide, by norm_num, by norm_num, ?_, ?_⟩
  · norm_num [calcGradTiled, writeTiles, tensor320, gradOnes, zerosLike,
      rollH, rollW, writeTile, frameAt, tileStartsOf, tileCount, tileStop,
      tileSize, List.range_succ]
  · norm_num [calcGradTiled, writeTiles, tensor320, gradOnes, zerosLike,
      rollH, rollW, writeTile, frameAt, tileStartsOf, tileCount, tileStop,
      tileSize, List.range_succ]

/-- C3 (amended): the tile loop never overlaps, always produces at least
one tile per spatial run, and the elements it writes are exactly those
with both indices below `tileCount · tileSize`; full coverage therefore
holds iff each dimension reaches no further than its last tile
(violated e.g. at height 320, see the counterexample). -/
theorem c3_tile_coverage (h w i j : ℕ) (_hi : i < h) (_hj : j < w) :
    tileStartsOf h ≠ [] ∧
    (covered2 h w i j ↔
      i < tileCount h * tileSize ∧ j < tileCount w * tileSize) ∧
    (∀ y₁ ∈ tileStartsOf h, ∀ y₂ ∈ tileStartsOf h,
      y₁ ≤ i ∧ i < y₁ + tileSize → y₂ ≤ i ∧ i < y₂ + tileSize → y₁ = y₂) := by
  refine ⟨?_, ?_, ?_⟩
  · have hpos := tileCount_pos h
    simp only [tileStartsOf, ne_eq, List.map_eq_nil_iff, List.range_eq_nil]
    omega
  · unfold covered2
    rw [coveredRow_iff, coveredRow_iff]
  · intro y₁ hy₁ y₂ hy₂ h1 h2
    obtain ⟨k₁, _, rfl⟩ := mem_tileStartsOf.1 hy₁
    obtain ⟨k₂, _, rfl⟩ := mem_tileStartsOf.1 hy₂
    simp only [tileSize] at *
    omega

/-- C4: for any interpolation kernel, any octave scale and any
`n_octaves` (in particular any `n_octaves ≥ 1`), the decomposition loop
produces `n_octaves - 1` detail levels, and recombining them in the
driver's order — repeatedly upsampling the current level to the next
detail's shape and adding that detail, with a pass-through optimisation
step — reproduces the pre-decomposition representation exactly (hence a
fortiori within any resize-interpolation tolerance): each recombination
adds back precisely the residual the decomposition subtracted. -/
theorem c4_pyramid_reconstruction (K : PyImage → ℕ × ℕ → ℕ → ℕ → ℚ)
    (scale : ℚ) (img : PyImage) (n : ℕ) :
    ((decomp K scale img (n - 1)).1).length = n - 1 ∧
    transformSingle K scale id img n = img := by
  refine ⟨decomp_fst_length K scale _ _, ?_⟩
  cases n with
  | zero => rfl
  | succ m =>
    show runOctaves K id (decomp K scale img (m + 1 - 1)).1
      (decomp K scale img (m + 1 - 1)).2 (m + 1) = img
    simp only [Nat.add_sub_cancel]
    exact decomp_runOctaves K scale m img

/-- C5 (counterexample): the claim says the octave loop reads the detail
at position `n_octaves - octave` of the stored list and that the
last-stored detail is the finest-grain one.  With `n_octaves = 3`,
`octave_scale = 1.4` and a 10 × 10 input: the detail list has length 2,
so position `n_octaves - octave = 2` at `octave = 1` is out of range
(Python `octaves[2]` would raise IndexError) — the code instead reads
`octaves[-octave]`, i.e. position `len - octave = 1`; moreover that
last-stored detail has 7 rows while the first-stored one has 10, so the
last-stored detail is the coarsest-grain one, not the finest. -/
theorem c5_detail_indexing_cex :
    dsC5.length = 2 ∧
    dsC5.get? (3 - 1) = none ∧
    (dsC5.get? (dsC5.length - 1)).map PyImage.rows = some 7 ∧
    (dsC5.get? 0).map PyImage.rows = some 10 ∧
    (7 : ℕ) < 10 := by
  refine ⟨rfl, rfl, ?_, rfl, by norm_num⟩
  show (dsC5.get? 1).map PyImage.rows = some 7
  norm_num [dsC5, decomp, resizeK, shrinkShape, shrinkDim, img0, K0,
    PyImage.sub]
  rw [Nat.floor_eq_iff (by norm_num)]
  norm_num

/-- C5 (amended): in the octave loop, for every octave index `o ≥ 1`
(with `o ≤ n_octaves - 1` and downscale factor ≥ 1), the detail read by
`octaves[-octave]` sits at position `n_octaves - 1 - o` (0-based) of the
stored list; at the smallest octave index `o = 1` it is the last-stored
detail, and the last-stored detail is the coarsest-grain one: its shape
is dominated by every other detail's shape. -/
theorem c5_detail_indexing (K : PyImage → ℕ × ℕ → ℕ → ℕ → ℚ) (scale : ℚ)
    (img : PyImage) (n o : ℕ)
    (hsc : 1 ≤ scale) (ho : 1 ≤ o) (hon : o ≤ n - 1) :
    ((decomp K scale img (n - 1)).1).length = n - 1 ∧
    ((decomp K scale img (n - 1)).1).get?
        (((decomp K scale img (n - 1)).1).length - o) =
      ((decomp K scale img (n - 1)).1).get? (n - 1 - o) ∧
    (o = 1 →
      ((decomp K scale img (n - 1)).1).get?
          (((decomp K scale img (n - 1)).1).length - o) =
        ((decomp K scale img (n - 1)).1).get?
          (((decomp K scale img (n - 1)).1).length - 1)) ∧
    ∃ last, ((decomp K scale img (n - 1)).1).get?
        (((decomp K scale img (n - 1)).1).length - 1) = some last ∧
      ∀ d ∈ (decomp K scale img (n - 1)).1,
        last.rows ≤ d.rows ∧ last.cols ≤ d.cols := by
  have hlen : ((decomp K scale img (n - 1)).1).length = n - 1 :=
    decomp_fst_length K scale _ _
  refine ⟨hlen, by rw [hlen], fun h1 => by rw [h1], ?_⟩
  have hpos : 0 < ((decomp K scale img (n - 1)).1).length := by omega
  obtain ⟨last, hlast⟩ : ∃ l, ((decomp K scale img (n - 1)).1).get?
      (((decomp K scale img (n - 1)).1).length - 1) = some l := by
    cases hc : ((decomp K scale img (n - 1)).1).get?
        (((decomp K scale img (n - 1)).1).length - 1) with
    | none =>
      have := List.get?_eq_none.1 hc
      omega
    | some l => exact ⟨l, rfl⟩
  refine ⟨last, hlast, ?_⟩
  intro d hd
  obtain ⟨k, hk⟩ := List.mem_iff_get?.1 hd
  have hkl : k < ((decomp K scale img (n - 1)).1).length := by
    cases hcl : Nat.lt_or_ge k ((decomp K scale img (n - 1)).1).length with
    | inl h => exact h
    | inr h =>
      rw [List.get?_eq_none.2 h] at hk
      cases hk
  have hkd := decomp_get_shapes K scale _ img k d hk
  have hld := decomp_get_shapes K scale _ img
    (((decomp K scale img (n - 1)).1).length - 1) last hlast
  have hle : k ≤ ((decomp K scale img (n - 1)).1).length - 1 := by omega
  constructor
  · rw [hkd.1, hld.1]
    exact dimAfter_antitone scale hsc img.rows hle
  · rw [hkd.2, hld.2]
    exact dimAfter_antitone scale hsc img.cols hle

/-- Witness for C5 (amended) at the concrete kernel `K0`,
`octave_scale = 1.4`, a 10 × 10 input, `n_octaves = 3` and
`octave = 1`. -/
theorem c5_detail_indexing_witness :
    ((decomp K0 (7 / 5) img0 (3 - 1)).1).length = 3 - 1 ∧
    ((decomp K0 (7 / 5) img0 (3 - 1)).1).get?
        (((decomp K0 (7 / 5) img0 (3 - 1)).1).length - 1) =
      ((decomp K0 (7 / 5) img0 (3 - 1)).1).get? (3 - 1 - 1) ∧
    ((1 : ℕ) = 1 →
      ((decomp K0 (7 / 5) img0 (3 - 1)).1).get?
          (((decomp K0 (7 / 5) img0 (3 - 1)).1).length - 1) =
        ((decomp K0 (7 / 5) img0 (3 - 1)).1).get?
          (((decomp K0 (7 / 5) img0 (3 - 1)).1).length - 1)) ∧
    ∃ last, ((decomp K0 (7 / 5) img0 (3 - 1)).1).get?
        (((decomp K0 (7 / 5) img0 (3 - 1)).1).length - 1) = some last ∧
      ∀ d ∈ (decomp K0 (7 / 5) img0 (3 - 1)).1,
        last.rows ≤ d.rows ∧ last.cols ≤ d.cols :=
  c5_detail_indexing K0 (7 / 5) img0 3 1 (by norm_num) (by norm_num)
    (by norm_num)

/-- C6: `calc_grad_tiled` is deterministic in the two-run sense — the
output has the input's shape, and two runs with equal drawn shift
offsets (the only effect of the seed), equal gradient oracle (fixed
classifier parameters) and equal input return identical tensors — while
two runs with different shift offsets can differ on a non-degenerate
configuration (concretely, a shift-sensitive oracle on a 1 × 2
tensor). -/
theorem c6_two_run_determinism :
    (∀ (G : Tensor3 → Tensor3) (sx sy : ℕ) (t : Tensor3),
      (calcGradTiled G sx sy t).channels = t.channels ∧
      (calcGradTiled G sx sy t).rows = t.rows ∧
      (calcGradTiled G sx sy t).cols = t.cols) ∧
    (∀ (G : Tensor3 → Tensor3) (sx₁ sy₁ sx₂ sy₂ : ℕ) (t₁ t₂ : Tensor3),
      sx₁ = sx₂ → sy₁ = sy₂ → t₁ = t₂ →
      calcGradTiled G sx₁ sy₁ t₁ = calcGradTiled G sx₂ sy₂ t₂) ∧
    calcGradTiled gradStub 0 0 seedTensor ≠
      calcGradTiled gradStub 1 0 seedTensor := by
  refine ⟨?_, ?_, ?_⟩
  · intro G sx sy t
    have h := writeTiles_shape G (rollH (rollW t (sx : ℤ)) (sy : ℤ))
      (zerosLike t)
    simp only [calcGradTiled, rollH, rollW, zerosLike] at h ⊢
    exact h
  · rintro G sx₁ sy₁ sx₂ sy₂ t₁ t₂ rfl rfl rfl
    rfl
  · intro h
    have h0 := congrArg (fun r => r.data 0 0 0) h
    have e1 : (calcGradTiled gradStub 0 0 seedTensor).data 0 0 0 = 0 := by
      norm_num [calcGradTiled, writeTiles, seedTensor, gradStub, zerosLike,
        rollH, rollW, writeTile, frameAt, tileStartsOf, tileCount, tileStop,
        tileSize, List.range_succ]
    have e2 : (calcGradTiled gradStub 1 0 seedTensor).data 0 0 0 = 1 := by
      norm_num [calcGradTiled, writeTiles, seedTensor, gradStub, zerosLike,
        rollH, rollW, writeTile, frameAt, tileStartsOf, tileCount, tileStop,
        tileSize, List.range_succ]
    simp only [e1, e2] at h0
    exact absurd h0 (by norm_num)

/-- Witness for C6 at equal concrete shifts, oracle and input. -/
theorem c6_two_run_determinism_witness :
    calcGradTiled gradStub 0 0 seedTensor =
      calcGradTiled gradStub 0 0 seedTensor :=
  c6_two_run_determinism.2.1 gradStub 0 0 0 0 seedTensor seedTensor
    rfl rfl rfl

/-- Witness for C3 (amended) at shape (320, 128) and element (100, 5). -/
theorem c3_tile_coverage_witness :
    tileStartsOf 320 ≠ [] ∧
    (covered2 320 128 100 5 ↔
      100 < tileCount 320 * tileSize ∧ 5 < tileCount 128 * tileSize) ∧
    (∀ y₁ ∈ tileStartsOf 320, ∀ y₂ ∈ tileStartsOf 320,
      y₁ ≤ 100 ∧ 100 < y₁ + tileSize → y₂ ≤ 100 ∧ 100 < y₂ + tileSize →
        y₁ = y₂) :=
  c3_tile_coverage 320 128 100 5 (by norm_num) (by norm_num)

end SpeakerDeepDream
